import Mathlib

/-!
Shallow embedding of the comment-clip HTML e-mail generator (`app.py`).

The rendering pipeline of the source program is embedded here function by
function: the text sanitizer `escape_nl2br`, the monogram deriver
`auto_monogram`, the row grouper `group_cards_by_article`, the two card
renderers `render_card` / `render_card_grouped` and the assembler
`render_email_full`, together with the call-site glue that selects the
pipeline and substitutes the placeholder card list.

Python strings are modelled by `String`, Python `None` by `Option`, and a
Python function that can raise an exception returns `Option _` (`none` is
the raised exception).  Dictionary rows with possibly missing keys are
modelled by a structure of `Option String` fields (`none` = key absent);
`r.get(k, d)` becomes `Option.getD`.
-/

namespace CommentClip

/-- The characters removed by Python `str.strip()`: ASCII whitespace,
the C0 separators and the Unicode space characters (`str.isspace`). -/
def isPySpace (c : Char) : Bool :=
  c = ' ' || c = '\t' || c = '\n' || c = '\r' || c = '\x0b' || c = '\x0c' ||
  c = '\x1c' || c = '\x1d' || c = '\x1e' || c = '\x1f' || c = '\x85' ||
  c = '\u00a0' || c = '\u1680' || ('\u2000' ≤ c && c ≤ '\u200a') ||
  c = '\u2028' || c = '\u2029' || c = '\u202f' || c = '\u205f' || c = '\u3000'

/-- Python `str.strip()` on the character list: drop leading whitespace, then
trailing whitespace (as the reversal of leading-whitespace dropping). -/
def pyStripL (l : List Char) : List Char :=
  ((l.dropWhile isPySpace).reverse.dropWhile isPySpace).reverse

/-- Python `str.strip()`. -/
def pyStrip (s : String) : String :=
  String.mk (pyStripL s.data)

/-- Python truthiness fallback `a or b` for strings. -/
def pyOrS (a b : String) : String :=
  if a = "" then b else a

/-- Python truthiness fallback `a or b` where `a` may be `None`. -/
def pyOrOS (a : Option String) (b : String) : String :=
  match a with
  | none => b
  | some s => if s = "" then b else s

/-- Python `s[:1]`: the first character as a string, `""` when empty. -/
def strTake1 (s : String) : String :=
  String.mk (s.data.take 1)

/-- Python `s[0]`: the first character as a string; `none` models the
`IndexError` raised on the empty string. -/
def strIndex0 (s : String) : Option String :=
  match s.data with
  | [] => none
  | c :: _ => some (String.mk [c])

/-- The two separator characters of the regex `[ 　]+` in
`auto_monogram`: the ASCII space and the full-width (ideographic) space. -/
def isSplitSpace (c : Char) : Bool :=
  c = ' ' || c = '\u3000'

mutual

/-- `re.split(r"[ 　]+", s)`, scanning inside a token: `cur` is the
(reversed) token read so far. -/
def reSplitAux : List Char → List Char → List String
  | [], cur => [String.mk cur.reverse]
  | c :: cs, cur =>
    if isSplitSpace c then String.mk cur.reverse :: reSplitSkip cs
    else reSplitAux cs (c :: cur)

/-- `re.split(r"[ 　]+", s)`, scanning inside a separator run. -/
def reSplitSkip : List Char → List String
  | [] => [""]
  | c :: cs =>
    if isSplitSpace c then reSplitSkip cs
    else reSplitAux cs [c]

end

/-- `re.split(r"[ 　]+", s)`: the maximal non-separator substrings, with
an empty token at an end of the string that touches a separator run. -/
def reSplitSpaces (s : String) : List String :=
  reSplitAux s.data []

/-- `auto_monogram` (app.py:36-47): derive the one-character avatar label
from a full name.  Empty name gives the fixed placeholder `"名"`; otherwise
the name is stripped and split on runs of ASCII/full-width spaces and the
first character of the first token is returned; when that token is empty the
code falls back to `full_name.strip()[0]`, whose `IndexError` on an
all-whitespace name is modelled by `none`. -/
def auto_monogram (full_name : String) : Option String :=
  if full_name = "" then some "名"
  else
    match reSplitSpaces (pyStrip full_name) with
    | t :: _ => if t = "" then strIndex0 (pyStrip full_name) else strIndex0 t
    | [] => strIndex0 (pyStrip full_name)

example : auto_monogram "" = some "名" := by decide
example : auto_monogram "山田 太郎" = some "山" := by decide
example : auto_monogram "Tanaka" = some "T" := by decide
example : auto_monogram " X" = some "X" := by decide
example : auto_monogram " " = none := by decide
example : auto_monogram "　" = none := by decide

/-- Python `s.replace(old, new)` for a one-character `old`, at the
character-list level: each occurrence of `old` becomes the list `newL`. -/
def replL (old : Char) (newL : List Char) (l : List Char) : List Char :=
  l.flatMap fun a => if a = old then newL else [a]

/-- Python `s.replace(old, new)` for a one-character `old`. -/
def pyReplace (s : String) (old : Char) (new : String) : String :=
  String.mk (replL old new.data s.data)

/-- Python `html.escape(s)` (quote=True): the five sequential replacements
of `&`, `<`, `>`, `"` and `'`, in the order the library performs them. -/
def htmlEscape (s : String) : String :=
  pyReplace (pyReplace (pyReplace (pyReplace (pyReplace s '&' "&amp;")
    '<' "&lt;") '>' "&gt;") '"' "&quot;") '\'' "&#x27;"

/-- `escape_nl2br` (app.py:29-33): `None` becomes `""`; otherwise the text is
HTML-escaped and every newline replaced by `<br>`. -/
def escape_nl2br (text : Option String) : String :=
  match text with
  | none => ""
  | some t => pyReplace (htmlEscape t) '\n' "<br>"

example : escape_nl2br (some "a<b\nc&d") = "a&lt;b<br>c&amp;d" := by decide
example : escape_nl2br none = "" := by decide

/-- One decimal digit character, as Python renders digit `n` (`n < 10`). -/
def digitCh (n : Nat) : Char :=
  if n = 0 then '0' else if n = 1 then '1' else if n = 2 then '2'
  else if n = 3 then '3' else if n = 4 then '4' else if n = 5 then '5'
  else if n = 6 then '6' else if n = 7 then '7' else if n = 8 then '8'
  else '9'

/-- Decimal digit list of `n`, with a fuel argument for structural
recursion (`fuel ≥ number of digits` suffices). -/
def natStrAux : Nat → Nat → List Char
  | 0, _ => []
  | fuel + 1, n =>
    if n < 10 then [digitCh n]
    else natStrAux fuel (n / 10) ++ [digitCh (n % 10)]

/-- Decimal rendering of a natural number: models the Python f-string
interpolation `f"{n}"` of a non-negative integer. -/
def natStr (n : Nat) : String :=
  String.mk (natStrAux (n + 1) n)

example : natStr 3 = "3" := by decide
example : natStr 3743 = "3743" := by decide

/-- `color_cycle` (app.py:57-60): the alternating default strip palette. -/
def color_cycle (idx : Nat) : String :=
  if idx % 2 = 0 then "#c7d2fe" else "#a5b4fc"

/-- Python `len(set(l))` for a list of strings: the number of distinct
elements under string equality. -/
def pyLenSet (l : List String) : Nat :=
  l.dedup.length

/-- One element of `cards_data`: a Python dict of string fields, a missing
key modelled by `none`. -/
structure Row where
  issue : Option String := none
  title : Option String := none
  comment : Option String := none
  name : Option String := none
  org : Option String := none
  bio : Option String := none
  link : Option String := none
  monogram : Option String := none
  strip_color : Option String := none
  comment_bar_color : Option String := none
deriving DecidableEq, Repr

/-- One element of a group's `entries` list (app.py:409-418): the grouping
code stores every key, so all fields are plain strings. -/
structure Entry where
  comment : String := ""
  name : String := ""
  org : String := ""
  bio : String := ""
  monogram : String := ""
  comment_bar_color : String := ""
deriving DecidableEq, Repr

/-- One article group produced by `group_cards_by_article`
(app.py:402-408). -/
structure Group where
  issue : String
  title : String
  link : String
  strip_color : String
  entries : List Entry
deriving DecidableEq, Repr

/-- The identity key of a row (app.py:400): the trimmed
(issue, title, link) triple. -/
def rowKey (r : Row) : String × String × String :=
  (pyStrip (r.issue.getD ""), pyStrip (r.title.getD ""), pyStrip (r.link.getD ""))

/-- The identity key a group carries in its own fields. -/
def groupKey (g : Group) : String × String × String :=
  (g.issue, g.title, g.link)

/-- The entry appended for a row (app.py:409-418). -/
def rowEntry (r : Row) : Entry :=
  { comment := r.comment.getD "", name := r.name.getD "", org := r.org.getD "",
    bio := r.bio.getD "", monogram := r.monogram.getD "",
    comment_bar_color := r.comment_bar_color.getD "#2563eb" }

/-- The fresh accumulator seeded for an unseen key (app.py:402-408),
before its entry is appended. -/
def newGroup (r : Row) : Group :=
  { issue := pyStrip (r.issue.getD ""), title := pyStrip (r.title.getD ""),
    link := pyStrip (r.link.getD ""),
    strip_color := pyOrOS r.strip_color "#c7d2fe", entries := [] }

/-- The strip-color fix-up (app.py:419-420): an empty stored strip color is
replaced by the row's color or the cycle default. -/
def stripFix (r : Row) (g : Group) : Group :=
  if g.strip_color = "" then
    { g with strip_color := pyOrOS r.strip_color (color_cycle 0) }
  else g

/-- One iteration of the grouping loop (app.py:399-420) over the ordered
bucket list: an unseen key appends a new accumulator at the end, a seen key
appends the row's entry to its bucket (keys are unique, so mapping over all
buckets updates exactly that one). -/
def insertRow (acc : List Group) (r : Row) : List Group :=
  if acc.any fun g => groupKey g = rowKey r then
    acc.map fun g =>
      if groupKey g = rowKey r then
        stripFix r { g with entries := g.entries ++ [rowEntry r] }
      else g
  else
    acc ++ [stripFix r { newGroup r with entries := [rowEntry r] }]

/-- `group_cards_by_article` (app.py:393-421): bucket the rows by trimmed
(issue, title, link) key into an insertion-ordered list of groups. -/
def group_cards_by_article (rows : List Row) : List Group :=
  rows.foldl insertRow []

example :
    group_cards_by_article
      [{ issue := some "第3742号", title := some "A", link := some "#a",
         name := some "Tanaka" },
       { issue := some " 第3742号 ", title := some "A", link := some "#a",
         name := some "Sato" }] =
    [{ issue := "第3742号", title := "A", link := "#a",
       strip_color := "#c7d2fe",
       entries := [{ name := "Tanaka", comment_bar_color := "#2563eb" },
                   { name := "Sato", comment_bar_color := "#2563eb" }] }] := by
  decide

/-- The `bio_html` fragment of `render_card` (app.py:153-158): shown only
for a non-empty (escaped) biography. -/
def bioHtmlCard (_commenter_bio : String) : String :=
  if _commenter_bio = "" then ""
  else "<div style=\"color:#94a3b8;font:12px/1.6 Arial,'Hiragino Kaku Gothic ProN',Meiryo,sans-serif;word-break:break-word;margin-top:2px;\">" ++ _commenter_bio ++ "</div>"

/-- The monogram of a single card (app.py:151): the override or the
derived monogram, stripped, truncated to one character, with the
placeholder as last resort.  `none` is the propagated `IndexError` of
`auto_monogram`. -/
def cardMono (monogram : Option String) (commenter_name : String) : Option String :=
  match (match monogram with
         | none => auto_monogram commenter_name
         | some m => if m = "" then auto_monogram commenter_name else some m) with
  | none => none
  | some v => some (pyOrS (strTake1 (pyStrip v)) "名")

/-- `render_card` (app.py:129-236): one article-plus-single-comment card.
`none` models the `IndexError` that `auto_monogram` can raise while the
monogram is computed. -/
def render_card (idx : Nat) (issue_label article_title comment_text
    commenter_name commenter_org link_url strip_color : String)
    (monogram : Option String := none)
    (comment_bar_color : String := "#2563eb")
    (commenter_bio : String := "") : Option String :=
  let _issue_label := escape_nl2br (some issue_label)
  let _article_title := escape_nl2br (some article_title)
  let _comment_text := escape_nl2br (some comment_text)
  let _commenter_name := escape_nl2br (some commenter_name)
  let _commenter_org := escape_nl2br (some commenter_org)
  let _commenter_bio := escape_nl2br (some (pyOrS commenter_bio ""))
  let _link_url := pyStrip (pyOrS link_url ("#article" ++ natStr (idx + 1)))
  let _strip_color := pyOrS strip_color (color_cycle idx)
  match cardMono monogram commenter_name with
  | none => none
  | some _mono =>
    let bio_html := bioHtmlCard _commenter_bio
    some ("
    <table role=\"presentation\" width=\"100%\" cellpadding=\"0\" cellspacing=\"0\" border=\"0\" style=\"background:#ffffff;border:1px solid #e5e7eb;border-radius:12px;\">
      <tbody>
        <tr><td style=\"height:4px;background:" ++ _strip_color ++
      ";border-top-left-radius:12px;border-top-right-radius:12px;\"></td></tr>

        <!-- 見出し：号数 + 記事タイトル -->
        <tr>
          <td style=\"padding:16px 20px 8px 20px;\">
            <table role=\"presentation\" width=\"100%\" cellpadding=\"0\" cellspacing=\"0\" border=\"0\">
              <tbody><tr>
                <td style=\"text-align:left;\">
                  <span style=\"display:inline-block;vertical-align:middle;white-space:nowrap;color:#475569;font-weight:600;font-size:13px;line-height:13px;\">" ++ _issue_label ++
      "</span>
                  <span style=\"display:inline-block;vertical-align:middle;margin-left:6px;color:#0f172a;font-weight:700;font-size:19px;line-height:19px;word-break:break-word;\">" ++ _article_title ++
      "</span>
                </td>
              </tr></tbody>
            </table>
          </td>
        </tr>

        <tr><td style=\"padding:6px 20px 0 20px;color:#64748b;font:600 13px/1 Arial,'Hiragino Kaku Gothic ProN',Meiryo,sans-serif;\">コメント</td></tr>
        <tr>
          <td style=\"padding:10px 20px 6px 20px;\">
            <table role=\"presentation\" width=\"100%\" cellpadding=\"0\" cellspacing=\"0\" border=\"0\">
              <tbody><tr>
                <td style=\"width:6px;background:" ++ comment_bar_color ++
      ";\"></td>
                <td style=\"padding:8px 0 8px 12px;color:#334155;font:15px/1.8 Arial,'Hiragino Kaku Gothic ProN',Meiryo,sans-serif;\">" ++ _comment_text ++
      "</td>
              </tr></tbody>
            </table>
          </td>
        </tr>

        <tr>
          <td style=\"padding:2px 20px 0 20px;\">
            <table role=\"presentation\" cellpadding=\"0\" cellspacing=\"0\" border=\"0\">
              <tbody><tr>
                <td style=\"width:1%;vertical-align:middle;\">
                  <div style=\"width:40px;height:40px;max-width:40px;min-width:40px;border-radius:50%;
                              background:#eef2f7;color:#64748b;
                              font:700 18px Arial,'Hiragino Kaku Gothic ProN',Meiryo,sans-serif;
                              line-height:40px;text-align:center;\">
                    " ++ _mono ++
      "
                  </div>
                </td>
                <td style=\"width:12px;\"></td>
                <td style=\"color:#0f172a;font:600 15px/1.3 Arial,'Hiragino Kaku Gothic ProN',Meiryo,sans-serif;\">
                  <table role=\"presentation\" cellpadding=\"0\" cellspacing=\"0\" border=\"0\">
                    <tbody><tr>
                      <td style=\"white-space:nowrap;vertical-align:baseline;color:#0f172a;font:600 15px/1.3 Arial,'Hiragino Kaku Gothic ProN',Meiryo,sans-serif;\">" ++ _commenter_name ++
      "</td>
                      <td style=\"width:10px;\"></td>
                      <td style=\"vertical-align:baseline;color:#64748b;font:13px/1.4 Arial,'Hiragino Kaku Gothic ProN',Meiryo,sans-serif;word-break:break-word;\">" ++ _commenter_org ++
      "</td>
                    </tr></tbody>
                  </table>
                  " ++ bio_html ++
      "
                </td>
              </tr></tbody>
            </table>
          </td>
        </tr>

        <tr>
          <td style=\"padding:12px 20px 18px 20px;\">
            <table role=\"presentation\" width=\"100%\" cellpadding=\"0\" cellspacing=\"0\" border=\"0\">
              <tbody><tr>
                <td style=\"background:#e8f0ff;border:1px solid #c7d2fe;border-radius:8px;\">
                  <a " ++ "href=\"" ++ _link_url ++ "\"" ++
      " target=\"_blank\" rel=\"noopener noreferrer\"
                     style=\"display:block;width:100%;text-align:center;color:#1d4ed8;text-decoration:none;font:700 15px/1 Arial,'Hiragino Kaku Gothic ProN',Meiryo,sans-serif;padding:12px 18px;border-radius:8px;\">
                    記事を読む
                  </a>
                </td>
              </tr></tbody>
            </table>
          </td>
        </tr>
      </tbody>
    </table>
    ")

/-- The monogram of one grouped-card entry (app.py:256 and 277): the
override or the derived monogram, truncated to one character (without
stripping), with the placeholder as last resort. -/
def entryMono (e : Entry) : Option String :=
  match (if e.monogram = "" then auto_monogram e.name else some e.monogram) with
  | none => none
  | some v => some (pyOrS (strTake1 v) "名")

/-- One avatar chip of a grouped card (app.py:258-263).  The grouper
stores a `comment_bar_color` in every entry, so `e.get(...)` is that
field. -/
def chipHtml (bar m : String) : String :=
  "<div style=\"width:28px;height:28px;border-radius:50%;background:" ++ bar ++
  ";
                    color:#ffffff;font:700 14px/28px Arial,'Hiragino Kaku Gothic ProN',Meiryo,sans-serif;
                    text-align:center;display:inline-block;margin-right:6px;\">" ++ m ++ "</div>"

/-- The overflow badge of a grouped card (app.py:264-267). -/
def moreBadge (n : Nat) : String :=
  "<span style=\"display:inline-block;margin-left:4px;color:#475569;
                          font:600 12px/1 Arial,'Hiragino Kaku Gothic ProN',Meiryo,sans-serif;\">+" ++ natStr n ++ "</span>"

/-- The `bio_html` fragment of a grouped-card entry (app.py:279-284). -/
def bioHtmlBlock (_bio : String) : String :=
  if _bio = "" then ""
  else "<div style=\"color:#94a3b8;font:12px/1.6 Arial,'Hiragino Kaku Gothic ProN',Meiryo,sans-serif;word-break:break-word;margin-top:2px;\">" ++ _bio ++ "</div>"

/-- One per-entry comment block of a grouped card (app.py:270-326). -/
def commentBlock (e : Entry) : Option String :=
  let bar := pyOrS e.comment_bar_color "#2563eb"
  let _comment := escape_nl2br (some e.comment)
  let _name := escape_nl2br (some e.name)
  let _org := escape_nl2br (some e.org)
  let _bio := escape_nl2br (some (pyOrS e.bio ""))
  match entryMono e with
  | none => none
  | some _mono =>
    let bio_html := bioHtmlBlock _bio
    some ("
        <!-- 個別コメントブロック -->
        <tr><td style=\"height:4px;background:" ++ bar ++
      ";border-radius:4px 4px 0 0;\"></td></tr>

        <tr><td style=\"padding:10px 20px 0 20px;\">
          <table role=\"presentation\" width=\"100%\" cellpadding=\"0\" cellspacing=\"0\" border=\"0\">
            <tbody>
              <tr>
                <td style=\"width:6px;background:" ++ bar ++
      ";\"></td>
                <td style=\"padding:10px 0 10px 12px;color:#334155;font:15px/1.8 Arial,'Hiragino Kaku Gothic ProN',Meiryo,sans-serif;\">" ++ _comment ++
      "</td>
              </tr>
            </tbody>
          </table>
        </td></tr>

        <tr><td style=\"padding:2px 20px 10px 20px;\">
          <table role=\"presentation\" cellpadding=\"0\" cellspacing=\"0\" border=\"0\">
            <tbody><tr>
              <td style=\"width:1%;vertical-align:middle;\">
                <div style=\"width:40px;height:40px;border-radius:50%;background:" ++ bar ++
      ";
                            color:#ffffff;font:700 18px Arial,'Hiragino Kaku Gothic ProN',Meiryo,sans-serif;
                            line-height:40px;text-align:center;\">
                  " ++ _mono ++
      "
                </div>
              </td>
              <td style=\"width:12px;\"></td>
              <td style=\"color:#0f172a;font:600 15px/1.3 Arial,'Hiragino Kaku Gothic ProN',Meiryo,sans-serif;\">
                <table role=\"presentation\" cellpadding=\"0\" cellspacing=\"0\" border=\"0\">
                  <tbody><tr>
                    <td style=\"white-space:nowrap;vertical-align:baseline;color:#0f172a;font:600 15px/1.3 Arial,'Hiragino Kaku Gothic ProN',Meiryo,sans-serif;\">" ++ _name ++
      "</td>
                    <td style=\"width:10px;\"></td>
                    <td style=\"vertical-align:baseline;color:#64748b;font:13px/1.4 Arial,'Hiragino Kaku Gothic ProN',Meiryo,sans-serif;word-break:break-word;\">" ++ _org ++
      "</td>
                  </tr></tbody>
                </table>
                " ++ bio_html ++
      "
              </td>
            </tr></tbody>
          </table>
        </td></tr>
        ")

/-- `Option`-valued traversal: models a Python list comprehension (or
loop collecting results) whose body can raise - the first raise aborts
the whole computation. -/
def mapMO (f : α → Option β) : List α → Option (List β)
  | [] => some []
  | a :: l =>
    match f a, mapMO f l with
    | some b, some bs => some (b :: bs)
    | _, _ => none

/-- `render_card_grouped` (app.py:242-386): one article card aggregating
several comments: count badge, chip row (at most five chips plus an
overflow badge), the per-entry blocks joined by the fixed spacer row, and
one shared link.  `none` models a raised `IndexError`. -/
def render_card_grouped (idx : Nat)
    (issue_label article_title link_url strip_color : String)
    (entries : List Entry) : Option String :=
  let _issue_label := escape_nl2br (some issue_label)
  let _article_title := escape_nl2br (some article_title)
  let _link_url := pyStrip (pyOrS link_url ("#article" ++ natStr (idx + 1)))
  let _strip_color := pyOrS strip_color (color_cycle idx)
  let commentators := entries.map fun e => escape_nl2br (some e.name)
  match mapMO entryMono entries with
  | none => none
  | some monograms =>
    let chips_html := String.join
      (((monograms.take 5).zip (entries.take 5)).map fun p =>
        chipHtml p.2.comment_bar_color p.1)
    let more_badge :=
      if monograms.length > 5 then moreBadge (monograms.length - 5) else ""
    match mapMO commentBlock entries with
    | none => none
    | some blocks =>
      let comments_html := String.intercalate
        "\n<tr><td style=\"height:8px;\"></td></tr>\n" blocks
      some ("
    <table role=\"presentation\" width=\"100%\" cellpadding=\"0\" cellspacing=\"0\" border=\"0\"
           style=\"background:#ffffff;border:1px solid #e5e7eb;border-radius:12px;\">
      <tbody>
        <tr><td style=\"height:4px;background:" ++ _strip_color ++
        ";
                      border-top-left-radius:12px;border-top-right-radius:12px;\"></td></tr>

        <!-- 記事タイトル -->
        <tr>
          <td style=\"padding:16px 20px 6px 20px;\">
            <table role=\"presentation\" width=\"100%\">
              <tbody><tr>
                <td style=\"text-align:left;\">
                  <span style=\"display:inline-block;vertical-align:middle;white-space:nowrap;
                               color:#475569;font-weight:600;font-size:13px;line-height:13px;\">
                    " ++ _issue_label ++
        "
                  </span>
                  <span style=\"display:inline-block;vertical-align:middle;margin-left:6px;
                               color:#0f172a;font-weight:700;font-size:19px;line-height:19px;\">
                    " ++ _article_title ++
        "
                  </span>
                </td>
                <td style=\"text-align:right;\">
                  <span style=\"display:inline-block;background:#f1f5ff;border:1px solid #c7d2fe;
                               color:#1d4ed8;font-weight:700;font-size:12px;padding:6px 10px;
                               border-radius:14px;\">
                    " ++ natStr entries.length ++
        "件 / " ++ natStr (pyLenSet commentators) ++ "名" ++
        "
                  </span>
                </td>
              </tr></tbody>
            </table>
            <div style=\"margin-top:8px;\">" ++ chips_html ++ more_badge ++
        "" ++ comments_html ++
        "</div>
          </td>
        </tr>

        " ++
        "

        <!-- 記事リンク -->
        <tr>
          <td style=\"padding:14px 20px 18px 20px;\">
            <table role=\"presentation\" width=\"100%\">
              <tbody><tr>
                <td style=\"background:#e8f0ff;border:1px solid #c7d2fe;border-radius:8px;\">
                  <a " ++ "href=\"" ++ _link_url ++ "\"" ++
        " target=\"_blank\" rel=\"noopener noreferrer\"
                     style=\"display:block;width:100%;text-align:center;color:#1d4ed8;
                            text-decoration:none;font:700 15px/1 Arial,'Hiragino Kaku Gothic ProN',Meiryo,sans-serif;
                            padding:12px 18px;border-radius:8px;\">
                    記事を読む
                  </a>
                </td>
              </tr></tbody>
            </table>
          </td>
        </tr>
      </tbody>
    </table>
    ")

/-- `render_email_full` (app.py:427-517): wrap the pre-rendered card
fragments, joined by the fixed spacer, into the complete document with
header and footer.  Total: always returns a string.  The fixed template
text is written as a concatenation of short literal chunks (the value is
the source's template verbatim). -/
def render_email_full (title_text badge_text header_title delivery_text
    description_text : String) (cards : List String) : String :=
  let _title_text := escape_nl2br (some title_text)
  let _badge_text := escape_nl2br (some badge_text)
  let _header_title := escape_nl2br (some header_title)
  let _delivery_text := escape_nl2br (some delivery_text)
  let _description_text := escape_nl2br (some description_text)
  let spacer := "<div style=\"height:18px;line-height:18px;\">&nbsp;</div>"
  let body_cards_html := String.intercalate spacer cards
  "<meta charset=\"UTF-8\">
<title>" ++
  _title_text ++
  "</title>

<!-- 100% wrapper -->
<table role=\"presentation\" width=\"100%\" cellpadding=\"0\" cellspacing=\"0\" border=\"0\" style=\"margin:0;padding:0;background:#f3f6fb;\">
  <tbody><tr>
    <td align=\"center\" style=\"padding:0;\">

      <!-- ===== Header ===== -->
      <table role=\"presentation\" width=\"100%\"" ++
  " cellpadding=\"0\" cellspacing=\"0\" border=\"0\" style=\"background:#0b1b34;\">
        <tbody><tr>
          <td align=\"center\" style=\"padding:0;\">
            <table role=\"presentation\" width=\"900\" cellpadding=\"0\" cellspacing=\"0\" border=\"0\" style=\"max-width:900px;width:100%;\">
              <tbody><tr>
 " ++
  "               <td style=\"padding:20px 24px 12px 24px;\">
                  <table role=\"presentation\" width=\"100%\" cellpadding=\"0\" cellspacing=\"0\" border=\"0\">
                    <tbody><tr>
                      <td>
                        <span style=\"display:inline-block;vertical-align:middle;ba" ++
  "ckground:#22315b;border:1px solid #2f3c66;color:#ffffff;font-weight:800;font-size:12px;letter-spacing:.04em;padding:7px 14px;border-radius:16px;font-family:Arial,'Hiragino Kaku Gothic ProN',Meiryo,sans-serif;\">" ++
  _badge_text ++
  "</span>
                        <span style=\"display:inline-block;vertical-align:middle;margin-left:12px;color:#ffffff;font-weight:800;font-size:22px;letter-spacing:.01em;font-family:Arial,'Hiragino Kaku Gothic ProN',Meiryo,sans-serif;\">" ++
  _header_title ++
  "</span>
                      </td>
                    </tr></tbody>
                  </table>
                  <table role=\"presentation\" width=\"100%\" cellpadding=\"0\" cellspacing=\"0\" border=\"0\">
                    <tbody><tr>
                      <td style=\"padding-top:8px;color:#dbeafe;font-s" ++
  "ize:14px;font-family:Arial,'Hiragino Kaku Gothic ProN',Meiryo,sans-serif;\">" ++
  _delivery_text ++
  "</td>
                    </tr></tbody>
                  </table>
                  <table role=\"presentation\" width=\"100%\" cellpadding=\"0\" cellspacing=\"0\" border=\"0\">
                    <tbody><tr>
                      <td style=\"padding-top:6px;color:#c7d2fe;font-size:13px;line-height:1.7;font-" ++
  "family:Arial,'Hiragino Kaku Gothic ProN',Meiryo,sans-serif;\">
                        " ++
  _description_text ++
  "
                      </td>
                    </tr></tbody>
                  </table>
                </td>
              </tr></tbody>
            </table>
          </td>
        </tr></tbody>
      </table>
      <!-- ===== /Header ===== -->

      <!-- ===== Body ===== -->
      <table role=" ++
  "\"presentation\" width=\"900\" cellpadding=\"0\" cellspacing=\"0\" border=\"0\" style=\"max-width:900px;width:100%;background:#f3f6fb;\">
        <tbody><tr>
          <td style=\"padding:24px;\">
            " ++
  body_cards_html ++
  "
          </td>
        </tr></tbody>
      </table>
      <!-- ===== /Body ===== -->

      <!-- ===== Footer ===== -->
      <table role=\"presentation\" width=\"100%\" cellpadding=\"0\" cellspacing=\"0\" border=\"0\" style=\"background:#0b1b34;\">
        <tbody><tr>
          <td align=\"center\" style=\"padd" ++
  "ing:18px 12px;\">
            <div style=\"color:#ffffff;font:12.5px/1.6 Arial,'Hiragino Kaku Gothic ProN',Meiryo,sans-serif;\">
              Copyright© 2016 Zeimu Kenkyukai, All rights reserved.
            </div>
            <div style=\"margin-top:8px;font-family:Arial,'Hiragino Kaku Gothic ProN',Me" ++
  "iryo,sans-serif;\">
              <a href=\"https://www.zeiken.co.jp/privacy/\" style=\"color:#ffffff;text-decoration:none;margin:0 10px;\">個人情報の保護について</a>
              <a href=\"https://www.zeiken.co.jp/contact/request/\" style=\"color:#ffffff;text-decoration:none;margin:0 10px;\">お問い合わせ</a>
            </" ++
  "div>
          </td>
        </tr></tbody>
      </table>
      <!-- ===== /Footer ===== -->

    </td>
  </tr></tbody>
</table>
"

/-- The call-site assembly of the final document (app.py:808-816): an
empty card list is replaced by the singleton placeholder list before the
assembler is invoked. -/
def full_html (title_text badge_text header_title delivery_text
    description_text : String) (cards_html_list : List String) : String :=
  render_email_full title_text badge_text header_title delivery_text
    description_text
    (if cards_html_list = [] then ["<!-- No cards -->"] else cards_html_list)

/-- The card list of the grouped path (app.py:777-789): group the rows and
render each group at its index. -/
def buildCardsGrouped (rows : List Row) : Option (List String) :=
  mapMO
    (fun p => render_card_grouped p.1 p.2.issue p.2.title p.2.link
      p.2.strip_color p.2.entries)
    (group_cards_by_article rows).enum

/-- The card list of the ungrouped path (app.py:790-806): render each row
at its index with the call site's fallbacks. -/
def buildCardsSingle (rows : List Row) : Option (List String) :=
  mapMO
    (fun p => render_card p.1 (p.2.issue.getD "") (p.2.title.getD "")
      (p.2.comment.getD "") (p.2.name.getD "") (p.2.org.getD "")
      (p.2.link.getD ("#article" ++ natStr (p.1 + 1)))
      (pyOrOS p.2.strip_color (color_cycle p.1))
      (some (p.2.monogram.getD "")) (p.2.comment_bar_color.getD "#2563eb")
      (p.2.bio.getD ""))
    rows.enum

/-- The whole grouped rendering pipeline (app.py:777-816): group, render
each group, assemble the document.  `none` models an uncaught exception. -/
def pipelineGrouped (title_text badge_text header_title delivery_text
    description_text : String) (rows : List Row) : Option String :=
  (buildCardsGrouped rows).map
    (full_html title_text badge_text header_title delivery_text
      description_text)

/-- The whole ungrouped rendering pipeline (app.py:790-816). -/
def pipelineSingle (title_text badge_text header_title delivery_text
    description_text : String) (rows : List Row) : Option String :=
  (buildCardsSingle rows).map
    (full_html title_text badge_text header_title delivery_text
      description_text)

example :
    (render_card 2 "i" "t" "c" "n" "o" "" "s" (some "M") "b" "x").isSome =
      true := rfl

example :
    (render_card_grouped 0 "i" "t" "" "s"
      [{ name := "Tanaka" }, { name := "Sato" }]).isSome = true := rfl

example :
    (pipelineGrouped "t" "b" "h" "d" "x" [{ name := some " " }]).isSome =
      false := rfl

/-! ### Helper lemmas: stripping and the monogram deriver -/

theorem dropWhile_eq_self_of {p : Char → Bool} :
    ∀ {l : List Char}, (∀ c ∈ l, p c = false) → l.dropWhile p = l
  | [], _ => rfl
  | c :: cs, h => by
    have hc : p c = false := h c (by simp)
    simp [List.dropWhile, hc]

theorem pyStripL_eq_self {l : List Char}
    (h : ∀ c ∈ l, isPySpace c = false) : pyStripL l = l := by
  unfold pyStripL
  rw [dropWhile_eq_self_of h, dropWhile_eq_self_of (by simpa using fun c hc => h c hc),
    List.reverse_reverse]

theorem pyStrip_eq_self_of {s : String}
    (h : ∀ c ∈ s.data, isPySpace c = false) : pyStrip s = s := by
  apply String.ext
  simpa [pyStrip] using pyStripL_eq_self h

theorem dropWhile_head_false {p : Char → Bool} :
    ∀ {l t : List Char} {c : Char}, l.dropWhile p = c :: t → p c = false
  | [], _, _, h => by simp at h
  | a :: l, t, c, h => by
    by_cases ha : p a
    · exact dropWhile_head_false (by simpa [List.dropWhile, ha] using h)
    · simp only [List.dropWhile, ha] at h
      cases h
      simpa using ha

theorem dropWhile_append_singleton {p : Char → Bool} {c : Char}
    (hc : p c = false) :
    ∀ xs : List Char, ∃ ys, (xs ++ [c]).dropWhile p = ys ++ [c]
  | [] => ⟨[], by simp [List.dropWhile, hc]⟩
  | x :: xs => by
    by_cases hx : p x
    · obtain ⟨ys, hys⟩ := dropWhile_append_singleton hc xs
      exact ⟨ys, by simp [List.dropWhile, hx, hys]⟩
    · exact ⟨x :: xs, by simp [List.dropWhile, hx]⟩

theorem pyStripL_cons {l t : List Char} {c : Char}
    (h : l.dropWhile isPySpace = c :: t) :
    ∃ ys, pyStripL l = c :: ys ∧ isPySpace c = false := by
  have hc : isPySpace c = false := dropWhile_head_false h
  obtain ⟨ys, hys⟩ :=
    dropWhile_append_singleton (p := isPySpace) hc t.reverse
  refine ⟨ys.reverse, ?_, hc⟩
  unfold pyStripL
  rw [h]
  have : (c :: t).reverse = t.reverse ++ [c] := by simp
  rw [this, hys]
  simp

theorem pyStripL_head_of_ne {l t : List Char} {c : Char}
    (h : pyStripL l = c :: t) : isPySpace c = false := by
  cases hd : l.dropWhile isPySpace with
  | nil => simp [pyStripL, hd] at h
  | cons c' t' =>
    obtain ⟨ys, hys, hc'⟩ := pyStripL_cons hd
    rw [h] at hys
    cases hys
    exact hc'

theorem isSplitSpace_pySpace {c : Char} (h : isSplitSpace c = true) :
    isPySpace c = true := by
  have h' : c = ' ' ∨ c = '　' := by simpa [isSplitSpace] using h
  rcases h' with rfl | rfl <;> decide

theorem reSplitAux_head :
    ∀ (l : List Char) (cur : List Char), ∃ ts,
      reSplitAux l cur =
        String.mk (cur.reverse ++ l.takeWhile fun c => !isSplitSpace c) :: ts
  | [], cur => ⟨[], by simp [reSplitAux]⟩
  | c :: cs, cur => by
    by_cases hc : isSplitSpace c
    · exact ⟨reSplitSkip cs, by simp [reSplitAux, hc, List.takeWhile_cons]⟩
    · obtain ⟨ts, hts⟩ := reSplitAux_head cs (c :: cur)
      refine ⟨ts, ?_⟩
      simp only [reSplitAux, hc, if_false]
      rw [hts]
      simp [List.takeWhile_cons, hc]

/-- Characterization of `auto_monogram` on a name whose stripped form is
non-empty: the first character of the stripped name. -/
theorem auto_monogram_char {s : String} {c : Char} {t : List Char}
    (h : pyStripL s.data = c :: t) :
    auto_monogram s = some (String.mk [c]) ∧ isPySpace c = false := by
  have hc : isPySpace c = false := pyStripL_head_of_ne h
  have hs : s ≠ "" := by
    intro hs
    subst hs
    simp [pyStripL] at h
  have hsplit : isSplitSpace c = false := by
    cases hsp : isSplitSpace c
    · rfl
    · rw [isSplitSpace_pySpace hsp] at hc
      cases hc
  refine ⟨?_, hc⟩
  have hdata : (pyStrip s).data = c :: t := by simp [pyStrip, h]
  obtain ⟨ts, hts⟩ := reSplitAux_head (c :: t) []
  simp only [List.reverse_nil, List.nil_append] at hts
  have htw : List.takeWhile (fun c => !isSplitSpace c) (c :: t) =
      c :: List.takeWhile (fun c => !isSplitSpace c) t := by
    simp [List.takeWhile_cons, hsplit]
  have hne : String.mk (List.takeWhile (fun c => !isSplitSpace c) (c :: t)) ≠ "" := by
    rw [htw]
    intro hcon
    have := congrArg String.data hcon
    simp at this
  simp only [auto_monogram, if_neg hs, reSplitSpaces, hdata, hts, if_neg hne]
  rw [htw]
  simp [strIndex0]

/-- Characterization of `auto_monogram` on a non-empty all-whitespace
name: the `IndexError` (`none`). -/
theorem auto_monogram_raises {s : String} (hs : s ≠ "")
    (h : pyStripL s.data = []) : auto_monogram s = none := by
  have hdata : (pyStrip s).data = ([] : List Char) := by simp [pyStrip, h]
  have hstr : pyStrip s = "" := String.ext hdata
  simp [auto_monogram, hs, reSplitSpaces, hdata, hstr, reSplitAux, strIndex0]

theorem auto_monogram_of_strip_ne {s : String} (h : pyStrip s ≠ "") :
    auto_monogram s = some (strTake1 (pyStrip s)) := by
  cases hd : pyStripL s.data with
  | nil => exact absurd (String.ext (by simp [pyStrip, hd])) h
  | cons c t =>
    rw [(auto_monogram_char hd).1]
    simp [strTake1, pyStrip, hd]

/-- Whatever `auto_monogram` returns contains no whitespace character. -/
theorem auto_monogram_nonspace {s v : String}
    (h : auto_monogram s = some v) : ∀ c ∈ v.data, isPySpace c = false := by
  by_cases hs : s = ""
  · subst hs
    have h0 : auto_monogram "" = some "名" := by decide
    rw [h0] at h
    cases h
    decide
  · cases hd : pyStripL s.data with
    | nil => rw [auto_monogram_raises hs hd] at h; cases h
    | cons c t =>
      obtain ⟨h1, h2⟩ := auto_monogram_char hd
      rw [h1] at h
      cases h
      simpa using h2

theorem strTake1_ne_empty {s : String} (h : s ≠ "") : strTake1 s ≠ "" := by
  cases hd : s.data with
  | nil => exact absurd (String.ext hd) h
  | cons c t =>
    simp only [strTake1, hd, List.take_succ_cons, List.take_zero]
    intro hcon
    have := congrArg String.data hcon
    simp at this

/-! ### C6: the monogram derivation algorithm -/

/-- C6 (counterexample): the claim "for every name containing a space the
result equals the first character of the substring before the first space"
fails at the name `" X"`: the substring before the first space is empty, so
it has no first character (`strIndex0` raises), while `auto_monogram`
returns `"X"`. -/
theorem c6_counterexample :
    auto_monogram " X" = some "X" ∧
    " X".data.takeWhile (fun c => c != ' ') = [] ∧
    auto_monogram " X" ≠
      strIndex0 (String.mk (" X".data.takeWhile fun c => c != ' ')) := by
  decide

/-- C6 (amended): `auto_monogram` returns the placeholder `"名"` on the
empty name; on a name whose stripped form is non-empty it returns the first
character of the first token of the stripped name, which is the first
character of the stripped name itself; on a non-empty all-whitespace name it
raises `IndexError` (modelled `none`) instead of returning a character; and
for an already-trimmed name containing an ASCII space the result is the
first character of the substring before the first space. -/
theorem c6_auto_monogram :
    (auto_monogram "" = some "名")
    ∧ (∀ s : String, pyStrip s ≠ "" →
        auto_monogram s = some (strTake1 (pyStrip s)))
    ∧ (∀ s : String, s ≠ "" → pyStrip s = "" → auto_monogram s = none)
    ∧ (∀ s : String, pyStrip s = s → s ≠ "" → ' ' ∈ s.data →
        auto_monogram s =
          some (strTake1 (String.mk (s.data.takeWhile fun c => c != ' ')))) := by
  refine ⟨by decide, fun s h => auto_monogram_of_strip_ne h, ?_, ?_⟩
  · intro s hs h
    apply auto_monogram_raises hs
    have := congrArg String.data h
    simpa [pyStrip] using this
  · intro s hstrip hs _
    have hne : pyStrip s ≠ "" := by rw [hstrip]; exact hs
    rw [auto_monogram_of_strip_ne hne, hstrip]
    cases hd : s.data with
    | nil => exact absurd (String.ext hd) hs
    | cons c t =>
      have hdrop : pyStripL s.data = s.data := by
        have := congrArg String.data hstrip
        simpa [pyStrip] using this
      have hc : isPySpace c = false := by
        apply pyStripL_head_of_ne (t := t)
        rw [hdrop, hd]
      have hcne : c ≠ ' ' := by
        intro hcon
        subst hcon
        cases hc
      have hcs : (c != ' ') = true := by simpa using hcne
      simp [strTake1, hd, List.takeWhile_cons, hcs]

/-- C6 (witness): the amended theorem applied at `"山田 太郎"` (stripped
form non-empty), at `" "` (non-empty all-whitespace name) and at
`"田中 太郎"` (trimmed name containing a space). -/
theorem c6_witness :
    auto_monogram "山田 太郎" = some (strTake1 (pyStrip "山田 太郎")) ∧
    auto_monogram " " = none ∧
    auto_monogram "田中 太郎" =
      some (strTake1 (String.mk
        ("田中 太郎".data.takeWhile fun c => c != ' '))) :=
  ⟨c6_auto_monogram.2.1 _ (by decide),
   c6_auto_monogram.2.2.1 _ (by decide) (by decide),
   c6_auto_monogram.2.2.2 _ (by decide) (by decide) (by decide)⟩

/-! ### C1: totality of the rendering pipeline -/

/-- C1: the rendering pipeline is not total: a well-typed row whose `name`
is the single space `" "` (and that carries no monogram override) makes
`auto_monogram` evaluate `"".strip()[0]` and raise `IndexError`, which
propagates out of both the grouped and the ungrouped pipeline (modelled
as `none` instead of a produced document string). -/
theorem c1_pipeline_raises :
    pipelineGrouped "t" "b" "h" "d" "x" [{ name := some " " }] = none ∧
    pipelineSingle "t" "b" "h" "d" "x" [{ name := some " " }] = none := by
  decide

/-! ### C7: monogram override precedence and truncation -/

/-- C7 (counterexample): in `render_card` a non-empty override is *not*
truncated to its first character: the override `" A"` renders as `"A"`
(the code strips before truncating), not as its first character `" "`. -/
theorem c7_counterexample :
    cardMono (some " A") "x" = some "A" ∧
    strTake1 " A" = " " ∧
    cardMono (some " A") "x" ≠ some (strTake1 " A") := by
  decide

/-- C7 (amended): in both renderers a non-empty override takes precedence
over derivation from the name; `render_card_grouped` truncates the override
to its first character, while `render_card` strips surrounding whitespace
first and then truncates (falling back to the placeholder when the
override was all whitespace); an empty override falls back to derivation
from the name in both renderers, never to the placeholder directly. -/
theorem c7_monogram_override :
    (∀ (m name : String), m ≠ "" →
        cardMono (some m) name = some (pyOrS (strTake1 (pyStrip m)) "名"))
    ∧ (∀ e : Entry, e.monogram ≠ "" → entryMono e = some (strTake1 e.monogram))
    ∧ (∀ name : String,
        cardMono (some "") name =
          (auto_monogram name).map fun v => pyOrS (strTake1 (pyStrip v)) "名")
    ∧ (∀ e : Entry, e.monogram = "" →
        entryMono e = (auto_monogram e.name).map fun v => pyOrS (strTake1 v) "名") := by
  refine ⟨?_, ?_, ?_, ?_⟩
  · intro m name hm
    simp [cardMono, hm]
  · intro e hm
    simp only [entryMono, if_neg hm]
    rw [pyOrS, if_neg (strTake1_ne_empty hm)]
  · intro name
    cases h : auto_monogram name <;> simp [cardMono, h]
  · intro e hm
    cases h : auto_monogram e.name <;> simp [entryMono, hm, h]

/-- C7 (witness): the amended theorem applied to a two-character override,
to an empty override with a derivable name, in both renderers. -/
theorem c7_witness :
    cardMono (some "AB") "x" = some (pyOrS (strTake1 (pyStrip "AB")) "名") ∧
    entryMono { monogram := "AB" } = some (strTake1 "AB") ∧
    cardMono (some "") "x" =
      (auto_monogram "x").map (fun v => pyOrS (strTake1 (pyStrip v)) "名") ∧
    entryMono { name := "x" } =
      (auto_monogram "x").map fun v => pyOrS (strTake1 v) "名" :=
  ⟨c7_monogram_override.1 "AB" "x" (by decide),
   c7_monogram_override.2.1 _ (by decide),
   c7_monogram_override.2.2.1 "x",
   c7_monogram_override.2.2.2 _ (by decide)⟩

/-! ### C9: monogram agreement between the two renderers -/

/-- C9 (counterexample): the two renderers do not compute the monogram
identically: for the override `" X"` the single-card renderer strips first
and shows `"X"`, the grouped renderer truncates without stripping and
shows `" "`. -/
theorem c9_counterexample :
    cardMono (some " X") "n" ≠ entryMono { name := "n", monogram := " X" } ∧
    cardMono (some " X") "n" = some "X" ∧
    entryMono { name := "n", monogram := " X" } = some " " := by
  decide

/-- C9 (amended): the single-card monogram (app.py:151) and the
grouped-entry monogram (app.py:256/277) agree on the same name and
override whenever the override is empty (both derive from the name) or its
first character is not whitespace - i.e. whenever the extra
`.strip()` of the single-card renderer has nothing to remove in front. -/
theorem c9_monogram_agreement (e : Entry)
    (h : ∀ c ∈ (strTake1 e.monogram).data, isPySpace c = false) :
    cardMono (some e.monogram) e.name = entryMono e := by
  by_cases hm : e.monogram = ""
  · cases ha : auto_monogram e.name with
    | none => simp [cardMono, entryMono, hm, ha]
    | some v =>
      have hv : pyStrip v = v :=
        pyStrip_eq_self_of (auto_monogram_nonspace ha)
      simp [cardMono, entryMono, hm, ha, hv]
  · cases hd : e.monogram.data with
    | nil => exact absurd (String.ext hd) hm
    | cons c t =>
      have hc : isPySpace c = false := by
        apply h
        simp [strTake1, hd]
      have hdrop : e.monogram.data.dropWhile isPySpace = c :: t := by
        simp [hd, List.dropWhile, hc]
      obtain ⟨ys, hys, _⟩ := pyStripL_cons hdrop
      simp only [cardMono, entryMono, if_neg hm]
      have h1 : strTake1 (pyStrip e.monogram) = String.mk [c] := by
        simp [strTake1, pyStrip, hys]
      have h2 : strTake1 e.monogram = String.mk [c] := by
        simp [strTake1, hd]
      rw [h1, h2]

/-- C9 (witness): the amended agreement applied to a non-whitespace
override. -/
theorem c9_witness :
    cardMono (some "M") "Tanaka" = entryMono { name := "Tanaka", monogram := "M" } :=
  c9_monogram_agreement { name := "Tanaka", monogram := "M" } (by decide)

/-! ### Helper lemmas: the sanitizer as a character-wise map -/

@[simp] theorem data_mk (l : List Char) : (String.mk l).data = l := rfl

/-- What one input character contributes to `escape_nl2br`'s output: the
list forms of `&amp; &lt; &gt; &quot; &#x27;` and `<br>`. -/
def escCharL (c : Char) : List Char :=
  if c = '&' then ['&', 'a', 'm', 'p', ';']
  else if c = '<' then ['&', 'l', 't', ';']
  else if c = '>' then ['&', 'g', 't', ';']
  else if c = '"' then ['&', 'q', 'u', 'o', 't', ';']
  else if c = '\'' then ['&', '#', 'x', '2', '7', ';']
  else if c = '\n' then ['<', 'b', 'r', '>']
  else [c]

theorem replL_append (old : Char) (newL : List Char) (x y : List Char) :
    replL old newL (x ++ y) = replL old newL x ++ replL old newL y := by
  simp [replL]

theorem escAll_single (a : Char) :
    replL '\n' "<br>".data (replL '\'' "&#x27;".data (replL '"' "&quot;".data
      (replL '>' "&gt;".data (replL '<' "&lt;".data
        (replL '&' "&amp;".data [a]))))) = escCharL a := by
  by_cases h1 : a = '&'
  · subst h1; decide
  by_cases h2 : a = '<'
  · subst h2; decide
  by_cases h3 : a = '>'
  · subst h3; decide
  by_cases h4 : a = '"'
  · subst h4; decide
  by_cases h5 : a = '\''
  · subst h5; decide
  by_cases h6 : a = '\n'
  · subst h6; decide
  simp [replL, escCharL, h1, h2, h3, h4, h5, h6]

theorem escAllL_eq_flatMap : ∀ l : List Char,
    replL '\n' "<br>".data (replL '\'' "&#x27;".data (replL '"' "&quot;".data
      (replL '>' "&gt;".data (replL '<' "&lt;".data
        (replL '&' "&amp;".data l))))) = l.flatMap escCharL
  | [] => rfl
  | a :: l => by
    have ih := escAllL_eq_flatMap l
    have hsplit : replL '&' "&amp;".data (a :: l) =
        replL '&' "&amp;".data [a] ++ replL '&' "&amp;".data l := by
      simp [replL]
    rw [hsplit, replL_append, replL_append, replL_append, replL_append,
      replL_append, ih, escAll_single]
    simp

/-- `escape_nl2br` is the character-wise map `escCharL`: the six sequential
replacements never rewrite each other's output. -/
theorem escape_nl2br_eq_flatMap (s : String) :
    escape_nl2br (some s) = String.mk (s.data.flatMap escCharL) := by
  apply String.ext
  simp only [escape_nl2br, htmlEscape, pyReplace, data_mk]
  exact escAllL_eq_flatMap s.data

/-- The number of occurrences of a character in a string. -/
def countChar (c : Char) (s : String) : Nat :=
  s.data.count c

theorem count_flatMap (c : Char) (f : Char → List Char) :
    ∀ l : List Char, (l.flatMap f).count c = (l.map fun a => (f a).count c).sum
  | [] => by simp
  | a :: l => by simp [List.count_append, count_flatMap c f l]

theorem sum_indicator (c : Char) : ∀ l : List Char,
    (l.map fun a => if a = c then 1 else 0).sum = l.count c
  | [] => by simp
  | a :: l => by
    simp only [List.map_cons, List.sum_cons, List.count_cons,
      sum_indicator c l, beq_iff_eq]
    split_ifs <;> omega

theorem escCharL_count_lt (a : Char) :
    (escCharL a).count '<' = if a = '\n' then 1 else 0 := by
  by_cases h1 : a = '&'
  · subst h1; decide
  by_cases h2 : a = '<'
  · subst h2; decide
  by_cases h3 : a = '>'
  · subst h3; decide
  by_cases h4 : a = '"'
  · subst h4; decide
  by_cases h5 : a = '\''
  · subst h5; decide
  by_cases h6 : a = '\n'
  · subst h6; decide
  simp [escCharL, h1, h2, h3, h4, h5, h6, List.count_cons, beq_iff_eq]

theorem escCharL_count_gt (a : Char) :
    (escCharL a).count '>' = if a = '\n' then 1 else 0 := by
  by_cases h1 : a = '&'
  · subst h1; decide
  by_cases h2 : a = '<'
  · subst h2; decide
  by_cases h3 : a = '>'
  · subst h3; decide
  by_cases h4 : a = '"'
  · subst h4; decide
  by_cases h5 : a = '\''
  · subst h5; decide
  by_cases h6 : a = '\n'
  · subst h6; decide
  simp [escCharL, h1, h2, h3, h4, h5, h6, List.count_cons, beq_iff_eq]

theorem escCharL_count_nl (a : Char) : (escCharL a).count '\n' = 0 := by
  by_cases h1 : a = '&'
  · subst h1; decide
  by_cases h2 : a = '<'
  · subst h2; decide
  by_cases h3 : a = '>'
  · subst h3; decide
  by_cases h4 : a = '"'
  · subst h4; decide
  by_cases h5 : a = '\''
  · subst h5; decide
  by_cases h6 : a = '\n'
  · subst h6; decide
  simp [escCharL, h1, h2, h3, h4, h5, h6, List.count_cons, beq_iff_eq]

theorem escCharL_count_quot (a : Char) : (escCharL a).count '"' = 0 := by
  by_cases h1 : a = '&'
  · subst h1; decide
  by_cases h2 : a = '<'
  · subst h2; decide
  by_cases h3 : a = '>'
  · subst h3; decide
  by_cases h4 : a = '"'
  · subst h4; decide
  by_cases h5 : a = '\''
  · subst h5; decide
  by_cases h6 : a = '\n'
  · subst h6; decide
  simp [escCharL, h1, h2, h3, h4, h5, h6, List.count_cons, beq_iff_eq]

theorem escCharL_count_apos (a : Char) : (escCharL a).count '\'' = 0 := by
  by_cases h1 : a = '&'
  · subst h1; decide
  by_cases h2 : a = '<'
  · subst h2; decide
  by_cases h3 : a = '>'
  · subst h3; decide
  by_cases h4 : a = '"'
  · subst h4; decide
  by_cases h5 : a = '\''
  · subst h5; decide
  by_cases h6 : a = '\n'
  · subst h6; decide
  simp [escCharL, h1, h2, h3, h4, h5, h6, List.count_cons, beq_iff_eq]

/-! ### C3: the text sanitizer -/

/-- C3: `escape_nl2br` maps absent input to `""` and never errors (it is a
total function); on present input every newline contributes exactly one
`<br>` marker and the input's angle brackets are all escaped: the output
has exactly one `<` and one `>` per input newline (those of the `<br>`
markers) and no other, no raw newline, and no raw double or single
quote. -/
theorem c3_escape_nl2br :
    escape_nl2br none = ""
    ∧ ∀ s : String,
        countChar '<' (escape_nl2br (some s)) = countChar '\n' s
        ∧ countChar '>' (escape_nl2br (some s)) = countChar '\n' s
        ∧ countChar '\n' (escape_nl2br (some s)) = 0
        ∧ countChar '"' (escape_nl2br (some s)) = 0
        ∧ countChar '\'' (escape_nl2br (some s)) = 0 := by
  refine ⟨rfl, fun s => ⟨?_, ?_, ?_, ?_, ?_⟩⟩
  · rw [countChar, escape_nl2br_eq_flatMap, data_mk, count_flatMap,
      show (fun a => (escCharL a).count '<') = fun a => if a = '\n' then 1 else 0
        from funext escCharL_count_lt]
    exact sum_indicator '\n' s.data
  · rw [countChar, escape_nl2br_eq_flatMap, data_mk, count_flatMap,
      show (fun a => (escCharL a).count '>') = fun a => if a = '\n' then 1 else 0
        from funext escCharL_count_gt]
    exact sum_indicator '\n' s.data
  · rw [countChar, escape_nl2br_eq_flatMap, data_mk, count_flatMap,
      show (fun a => (escCharL a).count '\n') = fun _ => (0 : Nat)
        from funext escCharL_count_nl]
    simp
  · rw [countChar, escape_nl2br_eq_flatMap, data_mk, count_flatMap,
      show (fun a => (escCharL a).count '"') = fun _ => (0 : Nat)
        from funext escCharL_count_quot]
    simp
  · rw [countChar, escape_nl2br_eq_flatMap, data_mk, count_flatMap,
      show (fun a => (escCharL a).count '\'') = fun _ => (0 : Nat)
        from funext escCharL_count_apos]
    simp

/-! ### Helper lemmas: the sanitizer is injective

The escape code is uniquely decodable: every `&` in the output opens one of
the five entity strings (no two of which are prefixes of each other), every
`<` opens a `<br>`, and every other character stands for itself. -/

def decodeEsc : List Char → Option (List Char)
  | [] => some []
  | c :: rest =>
    if c = '&' then
      if rest.take 4 = ['a', 'm', 'p', ';'] then
        (decodeEsc (rest.drop 4)).map fun l => '&' :: l
      else if rest.take 3 = ['l', 't', ';'] then
        (decodeEsc (rest.drop 3)).map fun l => '<' :: l
      else if rest.take 3 = ['g', 't', ';'] then
        (decodeEsc (rest.drop 3)).map fun l => '>' :: l
      else if rest.take 5 = ['q', 'u', 'o', 't', ';'] then
        (decodeEsc (rest.drop 5)).map fun l => '"' :: l
      else if rest.take 5 = ['#', 'x', '2', '7', ';'] then
        (decodeEsc (rest.drop 5)).map fun l => '\'' :: l
      else none
    else if c = '<' then
      if rest.take 3 = ['b', 'r', '>'] then
        (decodeEsc (rest.drop 3)).map fun l => '\n' :: l
      else none
    else (decodeEsc rest).map fun l => c :: l
termination_by l => l.length
decreasing_by all_goals (simp [List.length_drop] <;> omega)

theorem decode_escape : ∀ l : List Char, decodeEsc (l.flatMap escCharL) = some l
  | [] => by simp [decodeEsc]
  | a :: l => by
    have ih := decode_escape l
    rw [List.flatMap_cons]
    by_cases h1 : a = '&'
    · subst h1
      rw [show escCharL '&' = ['&', 'a', 'm', 'p', ';'] from rfl,
        List.cons_append, decodeEsc]
      simp [ih]
    by_cases h2 : a = '<'
    · subst h2
      rw [show escCharL '<' = ['&', 'l', 't', ';'] from rfl,
        List.cons_append, decodeEsc]
      simp [ih]
    by_cases h3 : a = '>'
    · subst h3
      rw [show escCharL '>' = ['&', 'g', 't', ';'] from rfl,
        List.cons_append, decodeEsc]
      simp [ih]
    by_cases h4 : a = '"'
    · subst h4
      rw [show escCharL '"' = ['&', 'q', 'u', 'o', 't', ';'] from rfl,
        List.cons_append, decodeEsc]
      simp [ih]
    by_cases h5 : a = '\''
    · subst h5
      rw [show escCharL '\'' = ['&', '#', 'x', '2', '7', ';'] from rfl,
        List.cons_append, decodeEsc]
      simp [ih]
    by_cases h6 : a = '\n'
    · subst h6
      rw [show escCharL '\n' = ['<', 'b', 'r', '>'] from rfl,
        List.cons_append, decodeEsc]
      simp [ih]
    have hesc : escCharL a = [a] := by
      simp [escCharL, h1, h2, h3, h4, h5, h6]
    rw [hesc, List.singleton_append, decodeEsc]
    simp [h1, h2, h6, ih]

theorem escape_nl2br_injective {a b : String}
    (h : escape_nl2br (some a) = escape_nl2br (some b)) : a = b := by
  apply String.ext
  rw [escape_nl2br_eq_flatMap, escape_nl2br_eq_flatMap] at h
  have h' : a.data.flatMap escCharL = b.data.flatMap escCharL :=
    congrArg String.data h
  have h2 := congrArg decodeEsc h'
  rw [decode_escape, decode_escape] at h2
  injection h2

theorem dedup_length_map_inj {f : String → String}
    (hf : ∀ x y, f x = f y → x = y) :
    ∀ l : List String, (l.map f).dedup.length = l.dedup.length
  | [] => by simp
  | a :: l => by
    by_cases ha : a ∈ l
    · rw [List.map_cons, List.dedup_cons_of_mem (List.mem_map_of_mem f ha),
        List.dedup_cons_of_mem ha]
      exact dedup_length_map_inj hf l
    · have hfa : f a ∉ l.map f := by
        intro hmem
        obtain ⟨x, hx, hfx⟩ := List.mem_map.mp hmem
        exact ha (hf x a hfx ▸ hx)
      rw [List.map_cons, List.dedup_cons_of_not_mem hfa,
        List.dedup_cons_of_not_mem ha]
      simp [dedup_length_map_inj hf l]

/-- The distinct-count of the escaped names equals the distinct-count of
the raw names: `escape_nl2br` is injective. -/
theorem pyLenSet_escape (names : List String) :
    pyLenSet (names.map fun n => escape_nl2br (some n)) = pyLenSet names :=
  dedup_length_map_inj (fun _ _ h => escape_nl2br_injective h) names

/-! ### Helper lemmas: substring containment in the rendered fragments -/

theorem strAssoc (a b c : String) : a ++ b ++ c = a ++ (b ++ c) := by
  apply String.ext
  simp [String.data_append]

/-- A prefix of a string is an infix of it. -/
theorem containsStr_take {m s : String} (post : String) (h : m ++ post = s) :
    m.data <:+: s.data := by
  subst h
  rw [String.data_append]
  exact (List.prefix_append m.data post.data).isInfix

/-- An infix of the right part of an append is an infix of the append. -/
theorem containsStr_right {m b : String} (a : String)
    (h : m.data <:+: b.data) : m.data <:+: (a ++ b).data := by
  rw [String.data_append]
  exact h.trans (List.suffix_append a.data b.data).isInfix

/-! ### C4: the grouped card's count badge -/

/-- C4: whenever `render_card_grouped` returns a fragment, the fragment
contains the badge text `"{N}件 / {M}名"` where `N` is the number of
entries and `M` is the number of distinct entry names (exact case-sensitive
string equality, all empty names in one bucket): the code counts distinct
*escaped* names, and the escape is injective, so the count equals the
distinct count of the raw names. -/
theorem c4_grouped_badge (idx : Nat) (issue_label article_title link_url
    strip_color : String) (entries : List Entry) (s : String)
    (h : render_card_grouped idx issue_label article_title link_url
      strip_color entries = some s) :
    (natStr entries.length ++ "件 / " ++
      natStr (pyLenSet (entries.map fun e => e.name)) ++ "名").data <:+:
      s.data := by
  simp only [render_card_grouped] at h
  split at h
  · cases h
  · split at h
    · cases h
    · injection h with h
      subst h
      have hnames : (entries.map fun e => escape_nl2br (some e.name)) =
          ((entries.map fun e => e.name).map fun n => escape_nl2br (some n)) := by
        simp [List.map_map, Function.comp]
      rw [hnames, pyLenSet_escape]
      simp only [strAssoc]
      apply containsStr_right
      apply containsStr_right
      apply containsStr_right
      apply containsStr_right
      apply containsStr_right
      apply containsStr_right
      apply containsStr_right
      exact containsStr_take _ (by simp only [strAssoc]; rfl)

/-- C4 (witness): a group of two entries with two distinct names shows the
badge `"2件 / 2名"`. -/
theorem c4_witness :
    ∃ s, render_card_grouped 0 "第3742号" "A" "#a" "#c7d2fe"
        [{ name := "Tanaka", comment_bar_color := "#2563eb" },
         { name := "Sato", comment_bar_color := "#2563eb" }] = some s ∧
      (natStr 2 ++ "件 / " ++ natStr (pyLenSet ["Tanaka", "Sato"]) ++
        "名").data <:+: s.data ∧
      natStr 2 ++ "件 / " ++ natStr (pyLenSet ["Tanaka", "Sato"]) ++ "名" =
        "2件 / 2名" :=
  ⟨_, rfl,
   c4_grouped_badge 0 "第3742号" "A" "#a" "#c7d2fe"
     [{ name := "Tanaka", comment_bar_color := "#2563eb" },
      { name := "Sato", comment_bar_color := "#2563eb" }] _ rfl,
   by decide⟩

/-! ### C5: the empty-card-list placeholder

To refute a substring containment in the (large) fixed document without a
full kernel scan, we count occurrences of the adjacent character pair
`N`,`o`: the placeholder `<!-- No cards -->` contains one, the assembled
document none. -/

/-- The number of positions where `c1` is immediately followed by `c2`. -/
def countPair (c1 c2 : Char) : List Char → Nat
  | c :: d :: rest =>
    (if c = c1 ∧ d = c2 then 1 else 0) + countPair c1 c2 (d :: rest)
  | _ => 0

theorem countPair_cons_le (c1 c2 x : Char) (l : List Char) :
    countPair c1 c2 l ≤ countPair c1 c2 (x :: l) := by
  cases l with
  | nil => simp [countPair]
  | cons d rest => simp [countPair]

theorem countPair_append_right_le (c1 c2 : Char) :
    ∀ (a b : List Char), countPair c1 c2 b ≤ countPair c1 c2 (a ++ b)
  | [], _ => le_refl _
  | x :: a, b =>
    le_trans (countPair_append_right_le c1 c2 a b)
      (countPair_cons_le c1 c2 x (a ++ b))

theorem countPair_prefix_le (c1 c2 : Char) :
    ∀ (m t : List Char), countPair c1 c2 m ≤ countPair c1 c2 (m ++ t)
  | [], _ => by simp [countPair]
  | [x], _ => by simp [countPair]
  | c :: d :: rest, t => by
    have ih := countPair_prefix_le c1 c2 (d :: rest) t
    simp only [countPair, List.cons_append, List.append_eq] at ih ⊢
    omega

theorem countPair_le_of_contained {c1 c2 : Char} {m l : List Char}
    (h : m <:+: l) : countPair c1 c2 m ≤ countPair c1 c2 l := by
  obtain ⟨s, t, hst⟩ := h
  subst hst
  calc countPair c1 c2 m ≤ countPair c1 c2 (m ++ t) :=
        countPair_prefix_le c1 c2 m t
    _ ≤ countPair c1 c2 (s ++ (m ++ t)) :=
        countPair_append_right_le c1 c2 s (m ++ t)
    _ = countPair c1 c2 (s ++ m ++ t) := by rw [List.append_assoc]

/-- Appending a pair-free block that does not start with `c2` to a
pair-free list keeps it pair-free. -/
theorem countPair_app_step {c1 c2 : Char} :
    ∀ {a : List Char} (b : List Char), countPair c1 c2 a = 0 →
      countPair c1 c2 b = 0 → b.head? ≠ some c2 →
      countPair c1 c2 (a ++ b) = 0
  | [], b, _, hb, _ => hb
  | [x], b, _, hb, hhead => by
    cases b with
    | nil => simp [countPair]
    | cons y rest =>
      have hy : y ≠ c2 := by
        intro hcon
        exact hhead (by simp [hcon])
      simp only [List.singleton_append, countPair]
      rw [if_neg (by intro hcon; exact hy hcon.2)]
      simpa [countPair] using hb
  | x :: x' :: rest, b, ha, hb, hhead => by
    simp only [countPair] at ha
    have h1 : (if x = c1 ∧ x' = c2 then 1 else 0) = 0 := by omega
    have h2 : countPair c1 c2 (x' :: rest) = 0 := by omega
    have ih := countPair_app_step (a := x' :: rest) b h2 hb hhead
    simp only [List.cons_append] at ih ⊢
    simp only [countPair, List.cons_append] at ih ⊢
    omega

set_option maxRecDepth 8000 in
/-- C5 (counterexample): the assembler itself does not substitute the
placeholder: `render_email_full` applied to the empty card sequence
produces a document that does not contain `<!-- No cards -->` (its card
slot is simply empty).  The substitution happens at the call site
(`full_html`), before the assembler is invoked. -/
theorem c5_counterexample :
    ¬ ("<!-- No cards -->".data <:+:
        (render_email_full "t" "b" "h" "d" "x" []).data) := by
  intro hcon
  have hge := @countPair_le_of_contained 'N' 'o' _ _ hcon
  have hple : countPair 'N' 'o' "<!-- No cards -->".data = 1 := by decide
  have hdoc : countPair 'N' 'o'
      (render_email_full "t" "b" "h" "d" "x" []).data = 0 := by
    simp only [render_email_full,
      show escape_nl2br (some "t") = "t" from by decide,
      show escape_nl2br (some "b") = "b" from by decide,
      show escape_nl2br (some "h") = "h" from by decide,
      show escape_nl2br (some "d") = "d" from by decide,
      show escape_nl2br (some "x") = "x" from by decide,
      show String.intercalate
        "<div style=\"height:18px;line-height:18px;\">&nbsp;</div>"
        ([] : List String) = "" from rfl,
      String.data_append]
    repeat' apply countPair_app_step
    all_goals decide
  rw [hple, hdoc] at hge
  cases hge

/-- C5 (amended): when the rendered card list is empty, the call-site
assembly (`full_html`, app.py:808-816) passes the singleton placeholder
list to the assembler, so for every choice of header fields the produced
document contains the placeholder comment `<!-- No cards -->`. -/
theorem c5_full_html_placeholder (title_text badge_text header_title
    delivery_text description_text : String) :
    ("<!-- No cards -->" : String).data <:+:
      (full_html title_text badge_text header_title delivery_text
        description_text []).data := by
  rw [show full_html title_text badge_text header_title delivery_text
      description_text [] =
      render_email_full title_text badge_text header_title delivery_text
        description_text ["<!-- No cards -->"] from rfl]
  simp only [render_email_full]
  rw [show String.intercalate
      "<div style=\"height:18px;line-height:18px;\">&nbsp;</div>"
      ["<!-- No cards -->"] = "<!-- No cards -->" from rfl]
  simp only [strAssoc]
  apply containsStr_right
  apply containsStr_right
  apply containsStr_right
  apply containsStr_right
  apply containsStr_right
  apply containsStr_right
  apply containsStr_right
  apply containsStr_right
  apply containsStr_right
  apply containsStr_right
  apply containsStr_right
  apply containsStr_right
  apply containsStr_right
  apply containsStr_right
  apply containsStr_right
  apply containsStr_right
  apply containsStr_right
  exact containsStr_take _ rfl

/-! ### C8: the positional anchor fallback for empty links -/

theorem digitCh_nonspace (n : Nat) : isPySpace (digitCh n) = false := by
  unfold digitCh
  split_ifs <;> decide

theorem natStrAux_nonspace : ∀ (fuel n : Nat), ∀ c ∈ natStrAux fuel n,
    isPySpace c = false
  | 0, n => by simp [natStrAux]
  | fuel + 1, n => by
    intro c hc
    simp only [natStrAux] at hc
    by_cases h : n < 10
    · rw [if_pos h] at hc
      simp only [List.mem_singleton] at hc
      subst hc
      exact digitCh_nonspace _
    · rw [if_neg h] at hc
      rcases List.mem_append.mp hc with h1 | h1
      · exact natStrAux_nonspace fuel (n / 10) c h1
      · simp only [List.mem_singleton] at h1
        subst h1
        exact digitCh_nonspace _

/-- Merging the fixed `href="` attribute opener with the anchor prefix. -/
theorem href_merge (X : String) :
    ("href=\"" : String) ++ ("#article" ++ X) = "href=\"#article" ++ X := by
  rw [← strAssoc]
  rfl

/-- The generated anchor `#articleN` contains no whitespace, so the
`.strip()` of the link fallback leaves it unchanged. -/
theorem anchor_strip (idx : Nat) :
    pyStrip ("#article" ++ natStr (idx + 1)) = "#article" ++ natStr (idx + 1) := by
  apply pyStrip_eq_self_of
  intro c hc
  rw [String.data_append] at hc
  rcases List.mem_append.mp hc with h | h
  · have hall : ∀ c ∈ "#article".data, isPySpace c = false := by decide
    exact hall c h
  · exact natStrAux_nonspace _ _ c h

/-- C8: in both renderers, a row/group whose link field is empty renders
its call-to-action with the positional anchor `#article{idx+1}`: the
computed link URL is exactly `"#article" ++ natStr (idx+1)` and the
rendered fragment contains `href="#article{idx+1}"`. -/
theorem c8_anchor_fallback :
    (∀ (idx : Nat) (issue_label article_title comment_text commenter_name
        commenter_org strip_color : String) (monogram : Option String)
        (comment_bar_color commenter_bio : String) (s : String),
      render_card idx issue_label article_title comment_text commenter_name
        commenter_org "" strip_color monogram comment_bar_color
        commenter_bio = some s →
      pyStrip (pyOrS "" ("#article" ++ natStr (idx + 1))) =
        "#article" ++ natStr (idx + 1)
      ∧ ("href=\"#article" ++ natStr (idx + 1) ++ "\"").data <:+: s.data)
    ∧ (∀ (idx : Nat) (issue_label article_title strip_color : String)
        (entries : List Entry) (s : String),
      render_card_grouped idx issue_label article_title "" strip_color
        entries = some s →
      ("href=\"#article" ++ natStr (idx + 1) ++ "\"").data <:+: s.data) := by
  have hlink : ∀ idx : Nat,
      pyStrip (pyOrS "" ("#article" ++ natStr (idx + 1))) =
        "#article" ++ natStr (idx + 1) := by
    intro idx
    rw [show pyOrS "" ("#article" ++ natStr (idx + 1)) =
        "#article" ++ natStr (idx + 1) from by simp [pyOrS]]
    exact anchor_strip idx
  constructor
  · intro idx issue_label article_title comment_text commenter_name
      commenter_org strip_color monogram comment_bar_color commenter_bio s h
    refine ⟨hlink idx, ?_⟩
    simp only [render_card] at h
    split at h
    · cases h
    · injection h with h
      subst h
      rw [hlink idx]
      simp only [strAssoc]
      rw [href_merge]
      apply containsStr_right
      apply containsStr_right
      apply containsStr_right
      apply containsStr_right
      apply containsStr_right
      apply containsStr_right
      apply containsStr_right
      apply containsStr_right
      apply containsStr_right
      apply containsStr_right
      apply containsStr_right
      apply containsStr_right
      apply containsStr_right
      apply containsStr_right
      apply containsStr_right
      apply containsStr_right
      apply containsStr_right
      apply containsStr_right
      apply containsStr_right
      exact containsStr_take _ (by simp only [strAssoc]; rfl)
  · intro idx issue_label article_title strip_color entries s h
    simp only [render_card_grouped] at h
    split at h
    · cases h
    · split at h
      · cases h
      · injection h with h
        subst h
        rw [hlink idx]
        simp only [strAssoc]
        rw [href_merge]
        apply containsStr_right
        apply containsStr_right
        apply containsStr_right
        apply containsStr_right
        apply containsStr_right
        apply containsStr_right
        apply containsStr_right
        apply containsStr_right
        apply containsStr_right
        apply containsStr_right
        apply containsStr_right
        apply containsStr_right
        apply containsStr_right
        apply containsStr_right
        apply containsStr_right
        apply containsStr_right
        apply containsStr_right
        apply containsStr_right
        exact containsStr_take _ (by simp only [strAssoc]; rfl)

/-! ### Helper lemmas: the grouping invariant -/

/-- The distinct row keys in order of first appearance. -/
def firstKeys (rows : List Row) : List (String × String × String) :=
  rows.foldl (fun ks r => if rowKey r ∈ ks then ks else ks ++ [rowKey r]) []

theorem firstKeys_mem_aux (k : String × String × String) :
    ∀ (rows : List Row) (ks : List (String × String × String)),
      (k ∈ rows.foldl
          (fun ks r => if rowKey r ∈ ks then ks else ks ++ [rowKey r]) ks) ↔
        k ∈ ks ∨ ∃ r ∈ rows, rowKey r = k
  | [], ks => by simp
  | r :: rows, ks => by
    rw [List.foldl_cons, firstKeys_mem_aux k rows]
    by_cases h : rowKey r ∈ ks
    · have h' : rowKey r = k → k ∈ ks := fun e => e ▸ h
      rw [if_pos h]
      constructor
      · rintro (hk | ⟨r', hr', hkr⟩)
        · exact Or.inl hk
        · exact Or.inr ⟨r', List.mem_cons_of_mem _ hr', hkr⟩
      · rintro (hk | ⟨r', hr', hkr⟩)
        · exact Or.inl hk
        · rcases List.mem_cons.mp hr' with rfl | hr''
          · exact Or.inl (h' hkr)
          · exact Or.inr ⟨r', hr'', hkr⟩
    · rw [if_neg h]
      constructor
      · rintro (hk | ⟨r', hr', hkr⟩)
        · rcases List.mem_append.mp hk with hk | hk
          · exact Or.inl hk
          · exact Or.inr ⟨r, List.mem_cons_self _ _,
              (List.mem_singleton.mp hk).symm⟩
        · exact Or.inr ⟨r', List.mem_cons_of_mem _ hr', hkr⟩
      · rintro (hk | ⟨r', hr', hkr⟩)
        · exact Or.inl (List.mem_append.mpr (Or.inl hk))
        · rcases List.mem_cons.mp hr' with rfl | hr''
          · exact Or.inl (List.mem_append.mpr
              (Or.inr (List.mem_singleton.mpr hkr.symm)))
          · exact Or.inr ⟨r', hr'', hkr⟩

theorem firstKeys_mem (k : String × String × String) (rows : List Row) :
    k ∈ firstKeys rows ↔ ∃ r ∈ rows, rowKey r = k := by
  rw [firstKeys, firstKeys_mem_aux]
  simp

theorem firstKeys_nodup_aux :
    ∀ (rows : List Row) (ks : List (String × String × String)), ks.Nodup →
      (rows.foldl
        (fun ks r => if rowKey r ∈ ks then ks else ks ++ [rowKey r]) ks).Nodup
  | [], _, h => h
  | r :: rows, ks, h => by
    rw [List.foldl_cons]
    apply firstKeys_nodup_aux rows
    by_cases hm : rowKey r ∈ ks
    · simpa [hm] using h
    · simp [hm, List.nodup_append, h]

theorem firstKeys_nodup (rows : List Row) : (firstKeys rows).Nodup :=
  firstKeys_nodup_aux rows [] List.nodup_nil

theorem stripFix_entries (r : Row) (g : Group) :
    (stripFix r g).entries = g.entries := by
  unfold stripFix
  split <;> rfl

theorem stripFix_key (r : Row) (g : Group) :
    groupKey (stripFix r g) = groupKey g := by
  unfold stripFix
  split <;> rfl

theorem stripFix_strip_ne (r : Row) (g : Group) (h : g.strip_color ≠ "") :
    (stripFix r g).strip_color ≠ "" := by
  simp [stripFix, h]

theorem pyOrOS_ne_empty (a : Option String) {b : String} (hb : b ≠ "") :
    pyOrOS a b ≠ "" := by
  cases a with
  | none => exact hb
  | some s =>
    by_cases hs : s = "" <;> simp [pyOrOS, hs, hb]

/-- The grouping invariant: the groups' keys are the distinct row keys in
first-appearance order, each group's entries are exactly the entries of
the rows carrying its key in input order, and stored strip colors are
never empty. -/
theorem group_inv (rows : List Row) :
    (group_cards_by_article rows).map groupKey = firstKeys rows
    ∧ (∀ g ∈ group_cards_by_article rows,
        g.entries =
          (rows.filter fun r => decide (rowKey r = groupKey g)).map rowEntry)
    ∧ (∀ g ∈ group_cards_by_article rows, g.strip_color ≠ "") := by
  induction rows using List.reverseRecOn with
  | nil =>
    refine ⟨rfl, ?_, ?_⟩ <;> intro g hg <;>
      simp [group_cards_by_article] at hg
  | append_singleton rows r ih =>
    obtain ⟨ihK, ihE, ihS⟩ := ih
    have hG : group_cards_by_article (rows ++ [r]) =
        insertRow (group_cards_by_article rows) r := by
      simp [group_cards_by_article, List.foldl_append]
    have hFK : firstKeys (rows ++ [r]) =
        if rowKey r ∈ firstKeys rows then firstKeys rows
        else firstKeys rows ++ [rowKey r] := by
      simp [firstKeys, List.foldl_append]
    by_cases hmem : ∃ g ∈ group_cards_by_article rows, groupKey g = rowKey r
    · -- the key is already present: the matching bucket gets the entry
      have hc : (group_cards_by_article rows).any
          (fun g => groupKey g = rowKey r) = true := by
        rw [List.any_eq_true]
        obtain ⟨g, hg, hk⟩ := hmem
        exact ⟨g, hg, by simp [hk]⟩
      have hkmem : rowKey r ∈ firstKeys rows := by
        rw [← ihK]
        obtain ⟨g, hg, hk⟩ := hmem
        exact hk ▸ List.mem_map_of_mem groupKey hg
      have hins : insertRow (group_cards_by_article rows) r =
          (group_cards_by_article rows).map fun g =>
            if groupKey g = rowKey r then
              stripFix r { g with entries := g.entries ++ [rowEntry r] }
            else g := by
        simp [insertRow, hc]
      have hupdkey : ∀ g : Group,
          groupKey (if groupKey g = rowKey r then
            stripFix r { g with entries := g.entries ++ [rowEntry r] }
          else g) = groupKey g := by
        intro g
        by_cases h : groupKey g = rowKey r
        · rw [if_pos h, stripFix_key]
          rfl
        · rw [if_neg h]
      refine ⟨?_, ?_, ?_⟩
      · rw [hG, hins, List.map_map, hFK, if_pos hkmem, ← ihK]
        exact List.map_congr_left fun g _ => hupdkey g
      · intro g' hg'
        rw [hG, hins] at hg'
        obtain ⟨g, hg, hupd⟩ := List.mem_map.mp hg'
        subst hupd
        rw [List.filter_append, List.map_append]
        by_cases hk : groupKey g = rowKey r
        · simp only [if_pos hk, stripFix_entries]
          have hkey : groupKey (stripFix r
              { g with entries := g.entries ++ [rowEntry r] }) = groupKey g :=
            stripFix_key r _
          rw [hkey]
          have hfr : List.filter (fun x => decide (rowKey x = groupKey g)) [r] =
              [r] := by
            simp [hk.symm]
          rw [hfr, ihE g hg]
          simp
        · simp only [if_neg hk]
          have hfr : List.filter (fun x => decide (rowKey x = groupKey g)) [r] =
              [] := by
            simp
            intro hcon
            exact hk hcon.symm
          rw [hfr, ihE g hg]
          simp
      · intro g' hg'
        rw [hG, hins] at hg'
        obtain ⟨g, hg, hupd⟩ := List.mem_map.mp hg'
        subst hupd
        by_cases hk : groupKey g = rowKey r
        · simp only [if_pos hk]
          exact stripFix_strip_ne _ _ (ihS g hg)
        · simp only [if_neg hk]
          exact ihS g hg
    · -- unseen key: a fresh bucket is appended at the end
      have hc : (group_cards_by_article rows).any
          (fun g => groupKey g = rowKey r) = false := by
        rw [List.any_eq_false]
        intro g hg
        simp only [decide_eq_true_eq]
        exact fun hk => hmem ⟨g, hg, hk⟩
      have hins : insertRow (group_cards_by_article rows) r =
          group_cards_by_article rows ++
            [stripFix r { newGroup r with entries := [rowEntry r] }] := by
        simp [insertRow, hc]
      have hknotin : rowKey r ∉ firstKeys rows := by
        rw [← ihK]
        intro hin
        obtain ⟨g, hg, hkeq⟩ := List.mem_map.mp hin
        exact hmem ⟨g, hg, hkeq⟩
      have hnewkey : groupKey (stripFix r
          { newGroup r with entries := [rowEntry r] }) = rowKey r := by
        rw [stripFix_key]
        rfl
      have hnorow : ∀ r' ∈ rows, rowKey r' ≠ rowKey r := by
        intro r' hr' hcon
        exact hknotin ((firstKeys_mem (rowKey r) rows).mpr ⟨r', hr', hcon⟩)
      refine ⟨?_, ?_, ?_⟩
      · rw [hG, hins, List.map_append, hFK, if_neg hknotin, ihK]
        simp [hnewkey]
      · intro g' hg'
        rw [hG, hins] at hg'
        rcases List.mem_append.mp hg' with hg | hg
        · rw [List.filter_append, List.map_append]
          have hfr : List.filter (fun x => decide (rowKey x = groupKey g')) [r] =
              [] := by
            simp
            intro hcon
            have : rowKey r ∈ firstKeys rows := by
              rw [← ihK]
              exact hcon ▸ List.mem_map_of_mem groupKey hg
            exact hknotin this
          rw [hfr, ihE g' hg]
          simp
        · simp only [List.mem_singleton] at hg
          subst hg
          rw [stripFix_entries, hnewkey]
          have hfil : rows.filter (fun x => decide (rowKey x = rowKey r)) = [] := by
            rw [List.filter_eq_nil_iff]
            intro r' hr'
            simp [hnorow r' hr']
          rw [List.filter_append, hfil]
          simp
      · intro g' hg'
        rw [hG, hins] at hg'
        rcases List.mem_append.mp hg' with hg | hg
        · exact ihS g' hg
        · simp only [List.mem_singleton] at hg
          subst hg
          apply stripFix_strip_ne
          exact pyOrOS_ne_empty _ (by decide)

theorem firstKeys_all_mem :
    ∀ (rows : List Row) (ks : List (String × String × String)),
      (∀ r ∈ rows, rowKey r ∈ ks) →
      rows.foldl
        (fun ks r => if rowKey r ∈ ks then ks else ks ++ [rowKey r]) ks = ks
  | [], _, _ => rfl
  | r :: rows, ks, h => by
    rw [List.foldl_cons, if_pos (h r (List.mem_cons_self _ _))]
    exact firstKeys_all_mem rows ks fun r' hr' =>
      h r' (List.mem_cons_of_mem _ hr')

theorem firstKeys_const (k : String × String × String) (rows : List Row)
    (hne : rows ≠ []) (hall : ∀ r ∈ rows, rowKey r = k) :
    firstKeys rows = [k] := by
  cases rows with
  | nil => exact absurd rfl hne
  | cons r0 rest =>
    have h0 : rowKey r0 = k := hall r0 (List.mem_cons_self _ _)
    rw [firstKeys, List.foldl_cons,
      show (if rowKey r0 ∈ ([] : List (String × String × String)) then
          ([] : List (String × String × String))
        else [] ++ [rowKey r0]) = [k] from by simp [h0]]
    exact firstKeys_all_mem rest [k] fun r' hr' => by
      simp [hall r' (List.mem_cons_of_mem _ hr')]

/-! ### C2: the grouping partition -/

/-- C2: `group_cards_by_article` partitions the rows by the trimmed
(issue, title, link) key: the groups' keys are exactly the distinct keys in
order of first appearance (one group per distinct key, no duplicates); a
group's entries are exactly the entries of the input rows whose trimmed key
equals the group's key, in original input order (so two rows land in the
same group iff their trimmed triples are equal and no row is dropped); and
N rows sharing one trimmed key produce one single group whose entries list
is the whole input, of length N. -/
theorem c2_group_cards_by_article (rows : List Row) :
    ((group_cards_by_article rows).map groupKey = firstKeys rows)
    ∧ ((group_cards_by_article rows).map groupKey).Nodup
    ∧ (∀ g ∈ group_cards_by_article rows,
        g.entries =
          (rows.filter fun r => decide (rowKey r = groupKey g)).map rowEntry)
    ∧ (∀ k : String × String × String, (∀ r ∈ rows, rowKey r = k) →
        rows ≠ [] →
        ∃ g, group_cards_by_article rows = [g] ∧ groupKey g = k ∧
          g.entries = rows.map rowEntry ∧ g.entries.length = rows.length) := by
  obtain ⟨hK, hE, _⟩ := group_inv rows
  refine ⟨hK, hK ▸ firstKeys_nodup rows, hE, ?_⟩
  intro k hall hne
  have hmap : (group_cards_by_article rows).map groupKey = [k] :=
    hK.trans (firstKeys_const k rows hne hall)
  cases hG : group_cards_by_article rows with
  | nil => rw [hG] at hmap; cases hmap
  | cons g rest =>
    rw [hG] at hmap
    cases rest with
    | cons g2 rest2 => simp at hmap
    | nil =>
      simp only [List.map_cons, List.map_nil, List.cons.injEq,
        and_true] at hmap
      have hent : g.entries = rows.map rowEntry := by
        have h1 := hE g (by rw [hG]; exact List.mem_cons_self _ _)
        rw [h1, hmap]
        have hfil : rows.filter (fun r => decide (rowKey r = k)) = rows := by
          rw [List.filter_eq_self]
          intro r hr
          simp [hall r hr]
        rw [hfil]
      exact ⟨g, rfl, hmap, hent, by rw [hent]; simp⟩

/-- C2 (witness): two rows sharing the trimmed key
("第3742号", "A", "#a") produce one group with two entries. -/
theorem c2_witness :
    ∃ g, group_cards_by_article
        [{ issue := some "第3742号", title := some "A", link := some "#a",
           name := some "Tanaka" },
         { issue := some "第3742号", title := some "A", link := some "#a",
           name := some "Sato" }] = [g] ∧
      groupKey g = ("第3742号", "A", "#a") ∧
      g.entries =
        [{ issue := some "第3742号", title := some "A", link := some "#a",
           name := some "Tanaka" },
         { issue := some "第3742号", title := some "A", link := some "#a",
           name := some "Sato" }].map rowEntry ∧
      g.entries.length = 2 :=
  (c2_group_cards_by_article
    [{ issue := some "第3742号", title := some "A", link := some "#a",
       name := some "Tanaka" },
     { issue := some "第3742号", title := some "A", link := some "#a",
       name := some "Sato" }]).2.2.2
    ("第3742号", "A", "#a") (by decide) (by decide)

/-! ### C10: groups are never empty -/

/-- C10: every group produced by `group_cards_by_article` has a non-empty
entries list: a bucket is created only when a row with its key arrives, and
that row's entry is appended immediately. -/
theorem c10_groups_nonempty (rows : List Row) (g : Group)
    (h : g ∈ group_cards_by_article rows) : g.entries ≠ [] := by
  obtain ⟨hK, hE, _⟩ := group_inv rows
  have hkmem : groupKey g ∈ firstKeys rows := by
    rw [← hK]
    exact List.mem_map_of_mem groupKey h
  obtain ⟨r, hr, hkr⟩ := (firstKeys_mem _ _).mp hkmem
  have hrf : r ∈ rows.filter fun r' => decide (rowKey r' = groupKey g) :=
    List.mem_filter.mpr ⟨hr, by simp [hkr]⟩
  rw [hE g h]
  intro hcon
  rw [List.map_eq_nil_iff] at hcon
  rw [hcon] at hrf
  cases hrf

/-- C10 (witness): the theorem applied to the single empty row. -/
theorem c10_witness :
    ({ issue := "", title := "", link := "", strip_color := "#c7d2fe",
       entries := [{ comment_bar_color := "#2563eb" }] } : Group).entries ≠ [] :=
  c10_groups_nonempty [{}] _ (by decide)

/-- C8 (witness): a row with empty link at 0-indexed position 2 renders
with link target `#article3`, in both renderers. -/
theorem c8_witness :
    (∃ s, render_card 2 "i" "t" "c" "n" "o" "" "sc" (some "M") "bc" "x" =
        some s ∧
      ("href=\"#article" ++ natStr 3 ++ "\"").data <:+: s.data) ∧
    (∃ s, render_card_grouped 2 "i" "t" "" "sc"
        [{ name := "Tanaka", comment_bar_color := "#2563eb" }] = some s ∧
      ("href=\"#article" ++ natStr 3 ++ "\"").data <:+: s.data) :=
  ⟨⟨_, rfl,
    (c8_anchor_fallback.1 2 "i" "t" "c" "n" "o" "sc" (some "M") "bc" "x" _
      rfl).2⟩,
   ⟨_, rfl,
    c8_anchor_fallback.2 2 "i" "t" "sc"
      [{ name := "Tanaka", comment_bar_color := "#2563eb" }] _ rfl⟩⟩

end CommentClip
